import Mathlib

/-!
# Verification of the `gg` terminal game-engine core

A shallow embedding of the frame-buffer renderer
(`internal/engine/render/renderer.go`), the scene state machine
(`examples/space_invaders/scenes/manager.go`) and the game loop
(`core.GameLoop.Run`, the signal-aware variant), together with theorems
settling the specification claims about them.

Machine integers: the Go code uses `int` without overflow-relevant
arithmetic, so coordinates and dimensions are embedded as `Int`; colors
(`type Color int`) likewise.  Fallible Go functions returning `error`
are embedded as returning the mutated state paired with an
`Option String` (the error), matching Go's in-place mutation where a
partial write survives a later error.  A Go runtime panic (e.g. `make`
with a negative length) is embedded via `GoResult.panic`.
-/

namespace GG

/-- Outcome of a Go computation that can panic at runtime. -/
inductive GoResult (α : Type) where
  | ok : α → GoResult α
  | panic : String → GoResult α
deriving DecidableEq

namespace Render

/-- Go: `type Color int`. -/
abbrev Color := Int

def ColorBlack : Color := 0
def ColorRed : Color := 1
def ColorGreen : Color := 2
def ColorYellow : Color := 3
def ColorBlue : Color := 4
def ColorMagenta : Color := 5
def ColorCyan : Color := 6
def ColorWhite : Color := 7
def ColorBrightBlack : Color := 8
def ColorBrightRed : Color := 9
def ColorBrightGreen : Color := 10
def ColorBrightYellow : Color := 11
def ColorBrightBlue : Color := 12
def ColorBrightMagenta : Color := 13
def ColorBrightCyan : Color := 14
def ColorBrightWhite : Color := 15

/-- Go: `type ColorInfo struct { Name string; ANSI string }`. -/
structure ColorInfo where
  name : String
  ansi : String
deriving DecidableEq

/-- Go: `type Palette struct { Colors []ColorInfo }`. -/
structure Palette where
  colors : List ColorInfo
deriving DecidableEq

/-- Go: `var DefaultPalette = Palette{...}` — 16 ANSI colors in enum order. -/
def DefaultPalette : Palette :=
  { colors :=
    [ { name := "black", ansi := "\x1b[30m" }
    , { name := "red", ansi := "\x1b[31m" }
    , { name := "green", ansi := "\x1b[32m" }
    , { name := "yellow", ansi := "\x1b[33m" }
    , { name := "blue", ansi := "\x1b[34m" }
    , { name := "magenta", ansi := "\x1b[35m" }
    , { name := "cyan", ansi := "\x1b[36m" }
    , { name := "white", ansi := "\x1b[37m" }
    , { name := "bright_black", ansi := "\x1b[90m" }
    , { name := "bright_red", ansi := "\x1b[91m" }
    , { name := "bright_green", ansi := "\x1b[92m" }
    , { name := "bright_yellow", ansi := "\x1b[93m" }
    , { name := "bright_blue", ansi := "\x1b[94m" }
    , { name := "bright_magenta", ansi := "\x1b[95m" }
    , { name := "bright_cyan", ansi := "\x1b[96m" }
    , { name := "bright_white", ansi := "\x1b[97m" } ] }

/-- Go: `type Renderer struct { width, height int; buffer [][]rune;
colors [][]Color; palette Palette }`.  `buffer`/`colors` are indexed
`[y][x]`. -/
structure Renderer where
  width : Int
  height : Int
  buffer : List (List Char)
  colors : List (List Color)
  palette : Palette
deriving DecidableEq

/-- Write `v` at `g[y][x]`, leaving `g` unchanged when `y` is out of
range (the Go call sites guard the indices, so this branch is never
reached there). -/
def set2 {α : Type} (g : List (List α)) (y x : Nat) (v : α) : List (List α) :=
  g.set y ((g.getD y []).set x v)

/-- Read `g[y][x]` with a default. -/
def getD2 {α : Type} (g : List (List α)) (y x : Nat) (d : α) : α :=
  (g.getD y []).getD x d

/-- The glyph stored at `(x, y)` (Go: `r.buffer[y][x]`). -/
def bufferAt (r : Renderer) (x y : Int) : Char :=
  getD2 r.buffer y.toNat x.toNat ' '

/-- The color stored at `(x, y)` (Go: `r.colors[y][x]`). -/
def colorAt (r : Renderer) (x y : Int) : Color :=
  getD2 r.colors y.toNat x.toNat ColorBlack

/-- Go: `func NewRenderer(width, height int, pal Palette) *Renderer`.
`make([][]rune, height)` panics when `height < 0`; the per-row
`make([]rune, width)` (reached only when `height > 0`) panics when
`width < 0`.  Otherwise every cell is initialized to `' '` and
`ColorBlack`, and no dimension validation is performed. -/
def NewRenderer (width height : Int) (pal : Palette) : GoResult Renderer :=
  if height < 0 then .panic "makeslice: len out of range"
  else if width < 0 ∧ 0 < height then .panic "makeslice: len out of range"
  else .ok
    { width := width
    , height := height
    , buffer := List.replicate height.toNat (List.replicate width.toNat ' ')
    , colors := List.replicate height.toNat (List.replicate width.toNat ColorBlack)
    , palette := pal }

/-- The renderer returned by a non-panicking `NewRenderer` call
(used to build concrete states in closed theorems). -/
def runNew (width height : Int) (pal : Palette) : Renderer :=
  match NewRenderer width height pal with
  | .ok r => r
  | .panic _ => { width := 0, height := 0, buffer := [], colors := [], palette := pal }

/-- Go: `func (r *Renderer) Size() (int, int)`. -/
def Size (r : Renderer) : Int × Int :=
  (r.width, r.height)

/-- Go: `func (r *Renderer) Clear()` — loops `y` over `[0, height)` and
`x` over `[0, width)`, resetting each cell to `' '` / `ColorBlack`. -/
def Clear (r : Renderer) : Renderer :=
  (List.range r.height.toNat).foldl (fun acc y =>
    (List.range r.width.toNat).foldl (fun acc2 x =>
      { acc2 with
        buffer := set2 acc2.buffer y x ' '
        colors := set2 acc2.colors y x ColorBlack }) acc) r

/-- Go: `func (r *Renderer) DrawChar(char rune, x, y int, color Color) error`.
Returns the (possibly updated) renderer and the error, mirroring Go's
in-place mutation plus returned `error`. -/
def DrawChar (r : Renderer) (char : Char) (x y : Int) (color : Color) :
    Renderer × Option String :=
  if x < 0 ∨ x ≥ r.width ∨ y < 0 ∨ y ≥ r.height then
    (r, some "drawing outside buffer bounds")
  else
    ({ r with
       buffer := set2 r.buffer y.toNat x.toNat char
       colors := set2 r.colors y.toNat x.toNat color }, none)

/-- Go: `func (r *Renderer) DrawPixel(x, y int, color Color) error`. -/
def DrawPixel (r : Renderer) (x y : Int) (color : Color) :
    Renderer × Option String :=
  DrawChar r '█' x y color

/-- The number of bytes of the UTF-8 encoding of `c`: Go's
`for i, char := range text` advances the index `i` by this amount. -/
def goUtf8Size (c : Char) : Nat :=
  if c.val < 0x80 then 1
  else if c.val < 0x800 then 2
  else if c.val < 0x10000 then 3
  else 4

/-- The body of `DrawText`'s `for i, char := range text` loop: `i` is
the byte offset of `char` within the string. -/
def drawTextAux (x y : Int) (color : Color) :
    Renderer → List Char → Nat → Renderer × Option String
  | r, [], _ => (r, none)
  | r, c :: rest, i =>
    match DrawChar r c (x + (i : Int)) y color with
    | (r', some e) => (r', some e)
    | (r', none) => drawTextAux x y color r' rest (i + goUtf8Size c)

/-- Go: `func (r *Renderer) DrawText(text string, x, y int, color Color) error`
— writes `char` at column `x + i` for each `(i, char)` of the string,
stopping at (and returning) the first error. -/
def DrawText (r : Renderer) (text : String) (x y : Int) (color : Color) :
    Renderer × Option String :=
  drawTextAux x y color r text.toList 0

/-- Run `f` over each index in turn, threading the renderer and
stopping at the first error — the shape of `DrawRect`'s loops. -/
def loopE (f : Renderer → Nat → Renderer × Option String) :
    Renderer → List Nat → Renderer × Option String
  | r, [] => (r, none)
  | r, n :: ns =>
    match f r n with
    | (r', some e) => (r', some e)
    | (r', none) => loopE f r' ns

/-- Go: `func (r *Renderer) DrawRect(x, y, width, height int, char rune, color Color) error`
— `dy` over `[0, height)` outer, `dx` over `[0, width)` inner, early
return on the first `DrawChar` error. -/
def DrawRect (r : Renderer) (x y width height : Int) (char : Char) (color : Color) :
    Renderer × Option String :=
  loopE (fun racc dy =>
      loopE (fun racc2 dx => DrawChar racc2 char (x + (dx : Int)) (y + (dy : Int)) color)
        racc (List.range width.toNat))
    r (List.range height.toNat)

/-- One write made by `Render` into its `strings.Builder`: the cursor
moves, the palette color escapes, the glyphs and the per-row cursor
repositionings, in emission order. -/
inductive OutTok where
  | home
  | hideCursor
  | colorSeq (s : String)
  | glyph (c : Char)
  | rowPos (row : Nat)
deriving DecidableEq

/-- Go: `r.palette.Colors[c].ANSI` (the call sites only reach this with
a valid palette index). -/
def ansiOf (pal : Palette) (c : Color) : String :=
  ((pal.colors).getD c.toNat { name := "", ansi := "" }).ansi

/-- The rows of the frame, each a list of `(glyph, color)` cells. -/
def cellRows (r : Renderer) : List (List (Char × Color)) :=
  List.zipWith (fun bs cs => bs.zip cs) r.buffer r.colors

/-- The inner `x` loop of `Render`: emit the palette escape only when
the cell color differs from `currentColor`, then the glyph; returns the
tokens and the final `currentColor`. -/
def renderRowCells (pal : Palette) : Color → List (Char × Color) → List OutTok × Color
  | cur, [] => ([], cur)
  | cur, (g, c) :: rest =>
    if c ≠ cur then
      let p := renderRowCells pal c rest
      (OutTok.colorSeq (ansiOf pal c) :: OutTok.glyph g :: p.1, p.2)
    else
      let p := renderRowCells pal cur rest
      (OutTok.glyph g :: p.1, p.2)

/-- The outer `y` loop of `Render`: each row's cells followed by the
explicit cursor repositioning `ESC[y+2;1H`; `currentColor` is carried
from row to row. -/
def renderRows (pal : Palette) : Color → Nat → List (List (Char × Color)) → List OutTok
  | _, _, [] => []
  | cur, y, row :: rest =>
    let p := renderRowCells pal cur row
    p.1 ++ (OutTok.rowPos (y + 2) :: renderRows pal p.2 (y + 1) rest)

/-- Go: `func (r *Renderer) Render()` — the contents of the
`strings.Builder` as the sequence of writes: cursor-home, cursor-hide,
then the rows with `currentColor` initialized to `ColorBlack` once per
frame. -/
def RenderTokens (r : Renderer) : List OutTok :=
  OutTok.home :: OutTok.hideCursor :: renderRows r.palette ColorBlack 0 (cellRows r)

/-- The byte string of one token. -/
def tokBytes : OutTok → String
  | .home => "\x1b[H"
  | .hideCursor => "\x1b[?25l"
  | .colorSeq s => s
  | .glyph c => String.singleton c
  | .rowPos n => "\x1b[" ++ toString n ++ ";1H"

/-- The frame string built by `Render` (`sb.String()`). -/
def renderFrame (r : Renderer) : String :=
  String.join ((RenderTokens r).map tokBytes)

/-- The full byte stream `Render` sends to stdout: the
`fmt.Print("\x1b[H\x1b[2J")` console clear, then the builder contents —
written twice, once via `os.Stdout.Write` and once via `fmt.Print`. -/
def renderOutput (r : Renderer) : String :=
  "\x1b[H\x1b[2J" ++ renderFrame r ++ renderFrame r

/-- The number of color-set escape sequences among the tokens. -/
def countColorSeq : List OutTok → Nat
  | [] => 0
  | t :: rest =>
    (match t with
     | OutTok.colorSeq _ => 1
     | _ => 0) + countColorSeq rest

/-- The number of positions of `l` whose color differs from the color
before it, the color before the first element being `prev`. -/
def transitions : Color → List Color → Nat
  | _, [] => 0
  | prev, c :: rest => (if c ≠ prev then 1 else 0) + transitions c rest

/-- The colors of the frame in row-major (emission) order. -/
def rowMajorColors (r : Renderer) : List Color :=
  ((cellRows r).flatten).map Prod.snd

/-- Modelled from the spec's words for the claim under test: the number
of maximal runs of same-colored consecutive cells, counted within each
row separately and summed over the rows. -/
def rowRunTotal (r : Renderer) : Nat :=
  ((cellRows r).map (fun row =>
    match row.map Prod.snd with
    | [] => 0
    | c :: rest => 1 + transitions c rest)).sum

/-- Shape invariant every renderer built by `NewRenderer` satisfies:
`buffer` and `colors` are `height` rows of `width` entries each. -/
def WF (r : Renderer) : Prop :=
  r.buffer.length = r.height.toNat ∧ r.colors.length = r.height.toNat ∧
  (∀ row ∈ r.buffer, row.length = r.width.toNat) ∧
  (∀ row ∈ r.colors, row.length = r.width.toNat)

instance (r : Renderer) : Decidable (WF r) := by
  unfold WF; infer_instance

/-- Every color of the grid `g` is a valid index into a palette of `n`
entries. -/
def colorsOK (n : Int) (g : List (List Color)) : Prop :=
  ∀ row ∈ g, ∀ c ∈ row, 0 ≤ c ∧ c < n

instance (n : Int) (g : List (List Color)) : Decidable (colorsOK n g) := by
  unfold colorsOK; infer_instance

/-- Every cell of the frame buffer holds a valid index into the
renderer's own palette. -/
def validColors (r : Renderer) : Prop :=
  colorsOK (r.palette.colors.length : Int) r.colors

instance (r : Renderer) : Decidable (validColors r) := by
  unfold validColors; infer_instance

/-- One mutating renderer operation, as invoked by client code. -/
inductive Op where
  | clear
  | drawPixel (x y : Int) (color : Color)
  | drawChar (char : Char) (x y : Int) (color : Color)
  | drawText (text : String) (x y : Int) (color : Color)
  | drawRect (x y w h : Int) (char : Char) (color : Color)
deriving DecidableEq

/-- The renderer state after an operation (Go mutates in place, so the
state survives whether or not the operation also returned an error). -/
def applyOp (r : Renderer) : Op → Renderer
  | .clear => Clear r
  | .drawPixel x y col => (DrawPixel r x y col).1
  | .drawChar c x y col => (DrawChar r c x y col).1
  | .drawText t x y col => (DrawText r t x y col).1
  | .drawRect x y w h c col => (DrawRect r x y w h c col).1

/-- The renderer state after a sequence of operations. -/
def applyOps (r : Renderer) (ops : List Op) : Renderer :=
  ops.foldl applyOp r

/-- The color argument of the operation (if any) is a valid index into
a palette of `n` entries. -/
def opOK (n : Int) : Op → Prop
  | .clear => True
  | .drawPixel _ _ col => 0 ≤ col ∧ col < n
  | .drawChar _ _ _ col => 0 ≤ col ∧ col < n
  | .drawText _ _ _ col => 0 ≤ col ∧ col < n
  | .drawRect _ _ _ _ _ col => 0 ≤ col ∧ col < n

instance (n : Int) (op : Op) : Decidable (opOK n op) := by
  cases op <;> (unfold opOK; infer_instance)

/-- The spec's 10×3 right-edge scenario, first call:
`DrawText "HI" 8 1 White` on a fresh 10×3 renderer. -/
def edgeScenario1 : Renderer × Option String :=
  DrawText (runNew 10 3 DefaultPalette) "HI" 8 1 ColorWhite

/-- The spec's 10×3 right-edge scenario, second call:
`DrawText "HI" 9 1 White` on the state left by the first call. -/
def edgeScenario2 : Renderer × Option String :=
  DrawText edgeScenario1.1 "HI" 9 1 ColorWhite

end Render

namespace Core

/-- Go (`core`): `type InputEvent struct { Rune rune }`. -/
structure InputEvent where
  rune : Char
deriving DecidableEq

/-- Result of a `Game.HandleInput` / `Game.Update` call: success,
`ErrQuitGame`, or any other (fatal) error. -/
inductive GameErr where
  | quit
  | fatal (msg : String)
deriving DecidableEq

/-- Which arm of `Run`'s `select` fires in an iteration: a resize
signal, an interrupt/terminate signal, a key event received from
`keyEvents`, the `keyEvents` channel observed closed (`ok = false`),
or the `default` branch. -/
inductive SelectEvent where
  | resize
  | signal
  | key (e : InputEvent)
  | keyClosed
  | idle
deriving DecidableEq

/-- The environment of one loop iteration: the wall-clock delta
`currentTime.Sub(lastTime).Seconds()` measured at the top of the
iteration, the `select` arm that fires, and the results the hosted
game returns from `HandleInput` / `Update` if they are called
(`none` = nil error). -/
structure Iter where
  rawDelta : ℚ
  sel : SelectEvent
  inputRes : Option GameErr
  updateRes : Option GameErr
deriving DecidableEq

/-- An observable action of `Run`, in program order. -/
inductive Ev where
  | resizeHook
  | handleInput (e : InputEvent)
  | update (dt : ℚ)
  | draw
  | sleep (d : ℚ)
  | cleanup
  | showCursor
  | restoreTerminal
deriving DecidableEq

/-- The `Update` / `Draw` / frame-cap tail of an iteration, reached
when the `select` arm neither `return`ed nor `continue`d.  `running`
is the flag after the `select` arm ran; `dt` is the already-scaled
`deltaTime`.  Returns the emitted events, the `running` flag after the
iteration, and `some msg` when the iteration `return`s the error. -/
def tailPhase (td dt : ℚ) (updateRes : Option GameErr) (running : Bool) :
    List Ev × Bool × Option String :=
  match updateRes with
  | some (GameErr.fatal m) => ([Ev.update dt], false, some m)
  | some GameErr.quit =>
    ([Ev.update dt, Ev.draw] ++ (if 0 < td - dt then [Ev.sleep (td - dt)] else []),
     false, none)
  | none =>
    ([Ev.update dt, Ev.draw] ++ (if 0 < td - dt then [Ev.sleep (td - dt)] else []),
     running, none)

/-- One iteration of `Run`'s `for gl.running` body (lines 295–342 of
the loop source): scale the delta by `targetTime` (`tt`), run the
`select`, then — unless the arm `return`ed or `continue`d — run
`Update`, `Draw` and the frame cap against `targetDeltaTime` (`td`).
The `keyClosed` arm is `gl.Stop()` followed by `continue`; a fatal
`HandleInput` error is `gl.Stop()` followed by `return err`. -/
def stepIter (tt td : ℚ) (it : Iter) : List Ev × Bool × Option String :=
  let dt := it.rawDelta * tt
  match it.sel with
  | SelectEvent.resize =>
    let t := tailPhase td dt it.updateRes true
    (Ev.resizeHook :: t.1, t.2.1, t.2.2)
  | SelectEvent.signal =>
    tailPhase td dt it.updateRes false
  | SelectEvent.keyClosed =>
    ([], false, none)
  | SelectEvent.key e =>
    match it.inputRes with
    | some (GameErr.fatal m) => ([Ev.handleInput e], false, some m)
    | some GameErr.quit =>
      let t := tailPhase td dt it.updateRes false
      (Ev.handleInput e :: t.1, t.2.1, t.2.2)
    | none =>
      let t := tailPhase td dt it.updateRes true
      (Ev.handleInput e :: t.1, t.2.1, t.2.2)
  | SelectEvent.idle =>
    tailPhase td dt it.updateRes true

/-- The outcome of running the loop on a finite iteration script:
either `Run` returned (with its trace and its returned error, `none`
being a nil return), or the script ran out while the loop was still
running. -/
inductive LoopOut where
  | finished (events : List Ev) (ret : Option String)
  | outOfFuel (events : List Ev)
deriving DecidableEq

/-- `Run`'s `for gl.running` loop together with its exit paths: when
`running` is false the loop exits, `gl.game.Cleanup()` runs and `Run`
returns nil, after which the deferred `render.ShowCursor()` and
`terminal.Restore` fire (in that LIFO order); a mid-loop `return err`
skips `Cleanup` and runs only the two deferred restores. -/
def loopGo (tt td : ℚ) : List Iter → Bool → LoopOut
  | _, false => .finished [Ev.cleanup, Ev.showCursor, Ev.restoreTerminal] none
  | [], true => .outOfFuel []
  | it :: rest, true =>
    match stepIter tt td it with
    | (evs, _, some m) =>
      .finished (evs ++ [Ev.showCursor, Ev.restoreTerminal]) (some m)
    | (evs, r', none) =>
      match loopGo tt td rest r' with
      | .finished evs2 ret => .finished (evs ++ evs2) ret
      | .outOfFuel evs2 => .outOfFuel (evs ++ evs2)

/-- Go: `func (gl *GameLoop) Run(targetTime, targetFps float64) error`
from the point where `Init` and raw-mode acquisition succeeded:
`targetDeltaTime := 1.0 / targetFps`, then the running loop. -/
def RunFrom (targetTime targetFps : ℚ) (script : List Iter) : LoopOut :=
  loopGo targetTime (1 / targetFps) script true

/-- The number of occurrences of `p` in the trace. -/
def countEv (p : Ev) : List Ev → Nat
  | [] => 0
  | e :: rest => (if e = p then 1 else 0) + countEv p rest

end Core

namespace Scenes

/-- Go (`scenes`): `type SceneID int`. -/
abbrev SceneID := Int

/-- A lifecycle call observed during a transition: `Exit` of a scene
or `Enter` of a scene.  `S` is the type of scene values. -/
inductive LifecycleEv (S : Type) where
  | exit (s : S)
  | enter (s : S)
deriving DecidableEq

/-- Go: `type Manager struct { scenes map[SceneID]Scene; currentScene Scene }`.
A `nil` interface value is `none`. -/
structure Manager (S : Type) where
  scenes : SceneID → Option S
  currentScene : Option S

/-- Go: `func (m *Manager) AddScene(id SceneID, scene Scene)`. -/
def AddScene {S : Type} (m : Manager S) (id : SceneID) (scene : S) : Manager S :=
  { m with scenes := fun i => if i = id then some scene else m.scenes i }

/-- Go: `func (m *Manager) ChangeScene(id SceneID)` — `Exit` the
current scene if any, set `currentScene` to the registry entry, then
`Enter` it.  Looking up an unregistered `id` yields the `nil` interface
and the `Enter` call on it panics (after the `Exit` already ran). -/
def ChangeScene {S : Type} (m : Manager S) (id : SceneID) :
    GoResult (Manager S × List (LifecycleEv S)) :=
  let exitEvs : List (LifecycleEv S) :=
    match m.currentScene with
    | some s => [.exit s]
    | none => []
  match m.scenes id with
  | some s2 => .ok ({ m with currentScene := some s2 }, exitEvs ++ [.enter s2])
  | none => .panic "runtime error: invalid memory address or nil pointer dereference"

end Scenes

/-! ## Helper lemmas -/

namespace Render

theorem getD_set_self {α : Type} (l : List α) (i : Nat) (v d : α) (h : i < l.length) :
    (l.set i v).getD i d = v := by
  rw [List.getD_eq_getElem _ d (by simpa using h)]
  exact List.getElem_set_self _

theorem getD_mem {α : Type} (l : List α) (i : Nat) (d : α) (h : i < l.length) :
    l.getD i d ∈ l := by
  rw [List.getD_eq_getElem l d h]
  exact List.getElem_mem h

theorem getD2_set2_self {α : Type} (g : List (List α)) (y x : Nat) (v d : α)
    (hy : y < g.length) (hx : x < (g.getD y []).length) :
    getD2 (set2 g y x v) y x d = v := by
  unfold getD2 set2
  rw [getD_set_self g y _ [] hy, getD_set_self _ x v d (by simpa using hx)]

theorem getD_replicate {α : Type} (n i : Nat) (a d : α) (h : i < n) :
    (List.replicate n a).getD i d = a := by
  rw [List.getD_eq_getElem _ d (by simpa using h)]
  exact List.getElem_replicate a _

theorem loopE_none (f : Renderer → Nat → Renderer × Option String)
    (hf : ∀ rr n, f rr n = (rr, none)) :
    ∀ (l : List Nat) (r : Renderer), loopE f r l = (r, none) := by
  intro l
  induction l with
  | nil => intro r; rfl
  | cons n ns ih => intro r; rw [loopE, hf r n]; exact ih r

theorem loopE_preserve (f : Renderer → Nat → Renderer × Option String)
    (P : Renderer → Prop) (hf : ∀ rr n, P rr → P (f rr n).1) :
    ∀ (l : List Nat) (r : Renderer), P r → P (loopE f r l).1 := by
  intro l
  induction l with
  | nil => intro r h; exact h
  | cons n ns ih =>
    intro r h
    rw [loopE]
    rcases hfr : f r n with ⟨r', err⟩
    have hr' : P r' := by have := hf r n h; rwa [hfr] at this
    cases err with
    | none => exact ih r' hr'
    | some e => exact hr'

theorem foldl_preserve {β : Type} (P : Renderer → Prop) (f : Renderer → β → Renderer)
    (hf : ∀ r b, P r → P (f r b)) :
    ∀ (l : List β) (r : Renderer), P r → P (l.foldl f r) := by
  intro l
  induction l with
  | nil => intro r h; exact h
  | cons b bs ih => intro r h; exact ih (f r b) (hf r b h)

theorem colorsOK_set2 {n : Int} {g : List (List Color)} (hg : colorsOK n g)
    (y x : Nat) {v : Color} (hv : 0 ≤ v ∧ v < n) :
    colorsOK n (set2 g y x v) := by
  intro row hrow c hc
  rcases List.mem_or_eq_of_mem_set hrow with h | h
  · exact hg row h c hc
  · subst h
    rcases List.mem_or_eq_of_mem_set hc with h2 | h2
    · by_cases hy : y < g.length
      · exact hg _ (getD_mem g y [] hy) c h2
      · rw [List.getD_eq_default g [] (by omega)] at h2
        simp at h2
    · subst h2; exact hv

theorem drawChar_colors {n : Int} (r : Renderer) (c : Char) (x y : Int) (col : Color)
    (hg : colorsOK n r.colors) (hcol : 0 ≤ col ∧ col < n) :
    colorsOK n (DrawChar r c x y col).1.colors := by
  unfold DrawChar
  split
  · exact hg
  · exact colorsOK_set2 hg _ _ hcol

theorem drawChar_palette (r : Renderer) (c : Char) (x y : Int) (col : Color) :
    (DrawChar r c x y col).1.palette = r.palette := by
  unfold DrawChar
  split <;> rfl

theorem drawTextAux_colors {n : Int} (x y : Int) (col : Color) (hcol : 0 ≤ col ∧ col < n) :
    ∀ (cs : List Char) (r : Renderer) (i : Nat), colorsOK n r.colors →
      colorsOK n (drawTextAux x y col r cs i).1.colors := by
  intro cs
  induction cs with
  | nil => intro r i hg; exact hg
  | cons c rest ih =>
    intro r i hg
    rw [drawTextAux]
    rcases hdc : DrawChar r c (x + (i : Int)) y col with ⟨r', err⟩
    have hr' : colorsOK n r'.colors := by
      have := drawChar_colors (n := n) r c (x + (i : Int)) y col hg hcol
      rwa [hdc] at this
    cases err with
    | none => exact ih r' (i + goUtf8Size c) hr'
    | some e => exact hr'

theorem drawTextAux_palette (x y : Int) (col : Color) :
    ∀ (cs : List Char) (r : Renderer) (i : Nat),
      (drawTextAux x y col r cs i).1.palette = r.palette := by
  intro cs
  induction cs with
  | nil => intro r i; rfl
  | cons c rest ih =>
    intro r i
    rw [drawTextAux]
    rcases hdc : DrawChar r c (x + (i : Int)) y col with ⟨r', err⟩
    have hp : r'.palette = r.palette := by
      have := drawChar_palette r c (x + (i : Int)) y col
      rwa [hdc] at this
    cases err with
    | none => rw [ih r' (i + goUtf8Size c)]; exact hp
    | some e => exact hp

theorem loopE_palette (f : Renderer → Nat → Renderer × Option String)
    (hf : ∀ rr n, (f rr n).1.palette = rr.palette) :
    ∀ (l : List Nat) (r : Renderer), (loopE f r l).1.palette = r.palette := by
  intro l
  induction l with
  | nil => intro r; rfl
  | cons n ns ih =>
    intro r
    rw [loopE]
    rcases hfr : f r n with ⟨r', err⟩
    have hp : r'.palette = r.palette := by have := hf r n; rwa [hfr] at this
    cases err with
    | none => rw [ih r']; exact hp
    | some e => exact hp

theorem clear_colors {n : Int} (r : Renderer) (hn : 0 < n) (hg : colorsOK n r.colors) :
    colorsOK n (Clear r).colors := by
  unfold Clear
  refine foldl_preserve (fun rr => colorsOK n rr.colors) _ ?_ _ r hg
  intro racc yIdx hacc
  refine foldl_preserve (fun rr => colorsOK n rr.colors) _ ?_ _ racc hacc
  intro racc2 xIdx hacc2
  exact colorsOK_set2 hacc2 yIdx xIdx ⟨le_refl 0, hn⟩

theorem clear_palette (r : Renderer) : (Clear r).palette = r.palette := by
  unfold Clear
  refine foldl_preserve (fun rr => rr.palette = r.palette) _ ?_ _ r rfl
  intro racc yIdx hacc
  refine foldl_preserve (fun rr => rr.palette = r.palette) _ ?_ _ racc hacc
  intro racc2 xIdx hacc2
  exact hacc2

theorem applyOp_palette (r : Renderer) (op : Op) :
    (applyOp r op).palette = r.palette := by
  cases op with
  | clear => exact clear_palette r
  | drawPixel x y col => exact drawChar_palette r '█' x y col
  | drawChar c x y col => exact drawChar_palette r c x y col
  | drawText t x y col => exact drawTextAux_palette x y col t.toList r 0
  | drawRect x y w h c col =>
    refine loopE_palette _ ?_ _ r
    intro rr dy
    refine loopE_palette _ ?_ _ rr
    intro rr2 dx
    exact drawChar_palette rr2 c (x + (dx : Int)) (y + (dy : Int)) col

theorem applyOps_palette (ops : List Op) :
    ∀ r : Renderer, (applyOps r ops).palette = r.palette := by
  induction ops with
  | nil => intro r; rfl
  | cons op rest ih =>
    intro r
    show (List.foldl applyOp r (op :: rest)).palette = r.palette
    rw [List.foldl_cons]
    calc (List.foldl applyOp (applyOp r op) rest).palette
        = (applyOp r op).palette := ih (applyOp r op)
      _ = r.palette := applyOp_palette r op

theorem applyOp_colors {n : Int} (r : Renderer) (op : Op) (hn : 0 < n)
    (hop : opOK n op) (hg : colorsOK n r.colors) :
    colorsOK n (applyOp r op).colors := by
  cases op with
  | clear => exact clear_colors r hn hg
  | drawPixel x y col => exact drawChar_colors r '█' x y col hg hop
  | drawChar c x y col => exact drawChar_colors r c x y col hg hop
  | drawText t x y col => exact drawTextAux_colors x y col hop t.toList r 0 hg
  | drawRect x y w h c col =>
    refine loopE_preserve _ (fun rr => colorsOK n rr.colors) ?_ _ r hg
    intro rr dy hrr
    refine loopE_preserve _ (fun rr2 => colorsOK n rr2.colors) ?_ _ rr hrr
    intro rr2 dx hrr2
    exact drawChar_colors rr2 c (x + (dx : Int)) (y + (dy : Int)) col hrr2 hop

theorem applyOps_colors {n : Int} (hn : 0 < n) :
    ∀ (ops : List Op) (r : Renderer), colorsOK n r.colors →
      (∀ op ∈ ops, opOK n op) → colorsOK n (applyOps r ops).colors := by
  intro ops
  induction ops with
  | nil => intro r hg _; exact hg
  | cons op rest ih =>
    intro r hg hops
    show colorsOK n (List.foldl applyOp r (op :: rest)).colors
    rw [List.foldl_cons]
    exact ih (applyOp r op)
      (applyOp_colors r op hn (hops op (List.mem_cons_self op rest)) hg)
      (fun o ho => hops o (List.mem_cons_of_mem op ho))

theorem countColorSeq_append (l1 l2 : List OutTok) :
    countColorSeq (l1 ++ l2) = countColorSeq l1 + countColorSeq l2 := by
  induction l1 with
  | nil => simp [countColorSeq]
  | cons t rest ih => simp [countColorSeq, ih]; omega

theorem renderRowCells_count (pal : Palette) :
    ∀ (row : List (Char × Color)) (cur : Color),
      countColorSeq (renderRowCells pal cur row).1 = transitions cur (row.map Prod.snd) := by
  intro row
  induction row with
  | nil => intro cur; rfl
  | cons cell rest ih =>
    intro cur
    rcases cell with ⟨g, c⟩
    rw [renderRowCells]
    by_cases hc : c ≠ cur
    · simp only [if_pos hc, countColorSeq, List.map_cons, transitions, ih c]
      simp [hc]
    · simp only [if_neg hc, countColorSeq, List.map_cons, transitions]
      push_neg at hc
      subst hc
      simp [ih c]

theorem renderRowCells_last (pal : Palette) :
    ∀ (row : List (Char × Color)) (cur : Color),
      (renderRowCells pal cur row).2 = (row.map Prod.snd).getLastD cur := by
  intro row
  induction row with
  | nil => intro cur; rfl
  | cons cell rest ih =>
    intro cur
    rcases cell with ⟨g, c⟩
    rw [renderRowCells]
    by_cases hc : c ≠ cur
    · simp only [if_pos hc, List.map_cons, List.getLastD_cons, ih c]
    · simp only [if_neg hc, List.map_cons, List.getLastD_cons]
      push_neg at hc
      subst hc
      exact ih c

theorem transitions_append (l1 l2 : List Color) :
    ∀ prev, transitions prev (l1 ++ l2) =
      transitions prev l1 + transitions (l1.getLastD prev) l2 := by
  induction l1 with
  | nil => intro prev; simp [transitions, List.getLastD]
  | cons c rest ih =>
    intro prev
    simp only [List.cons_append, transitions, List.getLastD_cons, List.append_eq]
    rw [ih c]
    omega

theorem renderRows_count (pal : Palette) :
    ∀ (rows : List (List (Char × Color))) (cur : Color) (y : Nat),
      countColorSeq (renderRows pal cur y rows) =
        transitions cur (rows.flatten.map Prod.snd) := by
  intro rows
  induction rows with
  | nil => intro cur y; rfl
  | cons row rest ih =>
    intro cur y
    rw [renderRows]
    simp only [countColorSeq_append, countColorSeq, List.flatten_cons, List.map_append,
      transitions_append, renderRowCells_count pal row cur, renderRowCells_last pal row cur,
      ih _ (y + 1)]
    omega

end Render

namespace Core

theorem countEv_append (p : Ev) (l1 l2 : List Ev) :
    countEv p (l1 ++ l2) = countEv p l1 + countEv p l2 := by
  induction l1 with
  | nil => simp [countEv]
  | cons e rest ih => simp [countEv, ih]; omega

theorem countEv_eq_zero (p : Ev) (l : List Ev) (h : p ∉ l) : countEv p l = 0 := by
  induction l with
  | nil => rfl
  | cons e rest ih =>
    simp only [countEv]
    rw [if_neg (fun he => h (List.mem_cons.mpr (Or.inl he.symm))),
      ih (fun hm => h (List.mem_cons_of_mem e hm))]

theorem tailPhase_mem (td dt : ℚ) (ur : Option GameErr) (b : Bool) :
    ∀ q ∈ (tailPhase td dt ur b).1,
      q = Ev.update dt ∨ q = Ev.draw ∨ q = Ev.sleep (td - dt) := by
  intro q hq
  rcases ur with _ | ge
  · simp only [tailPhase] at hq
    rcases List.mem_append.mp hq with h | h
    · simp only [List.mem_cons, List.not_mem_nil, or_false] at h
      tauto
    · split at h
      · simp only [List.mem_cons, List.not_mem_nil, or_false] at h
        tauto
      · simp at h
  · rcases ge with _ | m
    · simp only [tailPhase] at hq
      rcases List.mem_append.mp hq with h | h
      · simp only [List.mem_cons, List.not_mem_nil, or_false] at h
        tauto
      · split at h
        · simp only [List.mem_cons, List.not_mem_nil, or_false] at h
          tauto
        · simp at h
    · simp only [tailPhase, List.mem_cons, List.not_mem_nil, or_false] at hq
      tauto

theorem stepIter_mem (tt td : ℚ) (it : Iter) :
    ∀ q ∈ (stepIter tt td it).1,
      q = Ev.resizeHook ∨ (∃ e, q = Ev.handleInput e) ∨
      q = Ev.update (it.rawDelta * tt) ∨ q = Ev.draw ∨
      q = Ev.sleep (td - it.rawDelta * tt) := by
  intro q hq
  rcases it with ⟨d, sel, ir, ur⟩
  rcases sel with _ | _ | e | _ | _
  · simp only [stepIter] at hq
    rcases List.mem_cons.mp hq with h | h
    · exact Or.inl h
    · have := tailPhase_mem td (d * tt) ur true q h
      tauto
  · simp only [stepIter] at hq
    have := tailPhase_mem td (d * tt) ur false q hq
    tauto
  · rcases ir with _ | ge
    · simp only [stepIter] at hq
      rcases List.mem_cons.mp hq with h | h
      · exact Or.inr (Or.inl ⟨e, h⟩)
      · have := tailPhase_mem td (d * tt) ur true q h
        tauto
    · rcases ge with _ | m
      · simp only [stepIter] at hq
        rcases List.mem_cons.mp hq with h | h
        · exact Or.inr (Or.inl ⟨e, h⟩)
        · have := tailPhase_mem td (d * tt) ur false q h
          tauto
      · simp only [stepIter, List.mem_cons, List.not_mem_nil, or_false] at hq
        exact Or.inr (Or.inl ⟨e, hq⟩)
  · simp only [stepIter] at hq
    simp at hq
  · simp only [stepIter] at hq
    have := tailPhase_mem td (d * tt) ur true q hq
    tauto

theorem stepIter_no_teardown (tt td : ℚ) (it : Iter) (p : Ev)
    (hp : p = Ev.cleanup ∨ p = Ev.showCursor ∨ p = Ev.restoreTerminal) :
    countEv p (stepIter tt td it).1 = 0 := by
  apply countEv_eq_zero
  intro hmem
  have h := stepIter_mem tt td it p hmem
  rcases hp with h2 | h2 | h2 <;> subst h2 <;>
    rcases h with h | ⟨e, h⟩ | h | h | h <;> simp at h

theorem tailPhase_sleep (td dt : ℚ) (ur : Option GameErr) (b : Bool) (d : ℚ)
    (h : Ev.sleep d ∈ (tailPhase td dt ur b).1) : d = td - dt ∧ 0 < td - dt := by
  rcases ur with _ | ge
  · simp only [tailPhase] at h
    rcases List.mem_append.mp h with h2 | h2
    · simp at h2
    · split at h2
      case isTrue hc =>
        simp only [List.mem_cons, List.not_mem_nil, or_false, Ev.sleep.injEq] at h2
        exact ⟨h2, hc⟩
      case isFalse hc => simp at h2
  · rcases ge with _ | m
    · simp only [tailPhase] at h
      rcases List.mem_append.mp h with h2 | h2
      · simp at h2
      · split at h2
        case isTrue hc =>
          simp only [List.mem_cons, List.not_mem_nil, or_false, Ev.sleep.injEq] at h2
          exact ⟨h2, hc⟩
        case isFalse hc => simp at h2
    · simp only [tailPhase] at h
      simp at h

theorem stepIter_sleep (tt td : ℚ) (it : Iter) (d : ℚ)
    (h : Ev.sleep d ∈ (stepIter tt td it).1) :
    d = td - it.rawDelta * tt ∧ 0 < d := by
  rcases it with ⟨rd, sel, ir, ur⟩
  rcases sel with _ | _ | e | _ | _
  · simp only [stepIter] at h
    rcases List.mem_cons.mp h with h2 | h2
    · simp at h2
    · obtain ⟨h1, hpos⟩ := tailPhase_sleep td (rd * tt) ur true d h2
      exact ⟨h1, h1 ▸ hpos⟩
  · simp only [stepIter] at h
    obtain ⟨h1, hpos⟩ := tailPhase_sleep td (rd * tt) ur false d h
    exact ⟨h1, h1 ▸ hpos⟩
  · rcases ir with _ | ge
    · simp only [stepIter] at h
      rcases List.mem_cons.mp h with h2 | h2
      · simp at h2
      · obtain ⟨h1, hpos⟩ := tailPhase_sleep td (rd * tt) ur true d h2
        exact ⟨h1, h1 ▸ hpos⟩
    · rcases ge with _ | m
      · simp only [stepIter] at h
        rcases List.mem_cons.mp h with h2 | h2
        · simp at h2
        · obtain ⟨h1, hpos⟩ := tailPhase_sleep td (rd * tt) ur false d h2
          exact ⟨h1, h1 ▸ hpos⟩
      · simp only [stepIter] at h
        simp at h
  · simp only [stepIter] at h
    simp at h
  · simp only [stepIter] at h
    obtain ⟨h1, hpos⟩ := tailPhase_sleep td (rd * tt) ur true d h
    exact ⟨h1, h1 ▸ hpos⟩

end Core

/-! ## Claim theorems -/

namespace Render

/-- C6: for every renderer and every `(x, y)` with `0 ≤ x < width` and
`0 ≤ y < height`, `DrawChar` succeeds and a subsequent read of that cell
returns exactly the written glyph and color; for every `(x, y)` outside
that range, `DrawChar` returns the out-of-bounds error and leaves the
grid (the whole renderer) unchanged. -/
theorem drawChar_spec (r : Renderer) (hwf : WF r) (c : Char) (x y : Int) (col : Color) :
    ((0 ≤ x ∧ x < r.width ∧ 0 ≤ y ∧ y < r.height) →
      (DrawChar r c x y col).2 = none ∧
      bufferAt (DrawChar r c x y col).1 x y = c ∧
      colorAt (DrawChar r c x y col).1 x y = col) ∧
    (¬(0 ≤ x ∧ x < r.width ∧ 0 ≤ y ∧ y < r.height) →
      DrawChar r c x y col = (r, some "drawing outside buffer bounds")) := by
  obtain ⟨hlb, hlc, hrowb, hrowc⟩ := hwf
  constructor
  · rintro ⟨hx0, hxw, hy0, hyh⟩
    have hguard : ¬(x < 0 ∨ x ≥ r.width ∨ y < 0 ∨ y ≥ r.height) := by omega
    unfold DrawChar
    rw [if_neg hguard]
    refine ⟨rfl, ?_, ?_⟩
    · show getD2 (set2 r.buffer y.toNat x.toNat c) y.toNat x.toNat ' ' = c
      have hy : y.toNat < r.buffer.length := by omega
      have hx : x.toNat < (r.buffer.getD y.toNat []).length := by
        rw [hrowb _ (getD_mem r.buffer y.toNat [] hy)]
        omega
      exact getD2_set2_self r.buffer y.toNat x.toNat c ' ' hy hx
    · show getD2 (set2 r.colors y.toNat x.toNat col) y.toNat x.toNat ColorBlack = col
      have hy : y.toNat < r.colors.length := by omega
      have hx : x.toNat < (r.colors.getD y.toNat []).length := by
        rw [hrowc _ (getD_mem r.colors y.toNat [] hy)]
        omega
      exact getD2_set2_self r.colors y.toNat x.toNat col ColorBlack hy hx
  · intro hn
    have hguard : x < 0 ∨ x ≥ r.width ∨ y < 0 ∨ y ≥ r.height := by omega
    unfold DrawChar
    rw [if_pos hguard]

/-- Witness for C6 on a concrete 2×2 renderer: the in-bounds write at
`(1, 0)` succeeds and reads back, and the write at `(5, 0)` fails with
the out-of-bounds error leaving the renderer unchanged. -/
theorem drawChar_spec_witness :
    ((DrawChar (runNew 2 2 DefaultPalette) 'Z' 1 0 ColorRed).2 = none ∧
      bufferAt (DrawChar (runNew 2 2 DefaultPalette) 'Z' 1 0 ColorRed).1 1 0 = 'Z' ∧
      colorAt (DrawChar (runNew 2 2 DefaultPalette) 'Z' 1 0 ColorRed).1 1 0 = ColorRed) ∧
    DrawChar (runNew 2 2 DefaultPalette) 'Z' 5 0 ColorRed =
      (runNew 2 2 DefaultPalette, some "drawing outside buffer bounds") := by
  constructor
  · exact (drawChar_spec (runNew 2 2 DefaultPalette) (by decide) 'Z' 1 0 ColorRed).1
      (by decide)
  · exact (drawChar_spec (runNew 2 2 DefaultPalette) (by decide) 'Z' 5 0 ColorRed).2
      (by decide)

/-- C7: the spec's 10×3 right-edge scenario for `DrawText`.
`DrawText "HI" 8 1 White` on a fresh 10×3 renderer succeeds with `H` at
`(8,1)` and `I` at `(9,1)`; the subsequent `DrawText "HI" 9 1 White`
writes `H` at `(9,1)`, then returns the out-of-bounds error for the `I`
at `(10,1)`, with `(9,1)` retaining the `H` (the partial write
survives). -/
theorem drawText_edge_scenario :
    edgeScenario1.2 = none ∧
    bufferAt edgeScenario1.1 8 1 = 'H' ∧
    colorAt edgeScenario1.1 8 1 = ColorWhite ∧
    bufferAt edgeScenario1.1 9 1 = 'I' ∧
    colorAt edgeScenario1.1 9 1 = ColorWhite ∧
    edgeScenario2.2 = some "drawing outside buffer bounds" ∧
    bufferAt edgeScenario2.1 9 1 = 'H' ∧
    colorAt edgeScenario2.1 9 1 = ColorWhite := by
  decide

/-- C8 counterexample: the claim says construction with `width ≤ 0` or
`height ≤ 0` fails, but `NewRenderer 0 0` succeeds, returning a
renderer with a degenerate empty grid (the Go function performs no
dimension validation and cannot return an error at all). -/
theorem newRenderer_zero_dims_cex :
    NewRenderer 0 0 DefaultPalette =
      GoResult.ok { width := 0, height := 0, buffer := [], colors := [],
                    palette := DefaultPalette } := by
  decide

/-- C8 amended: `NewRenderer` performs no dimension validation.  For
positive dimensions it returns a `width×height` grid whose every cell
holds the blank glyph `' '` and `ColorBlack` (index 0, the default
color); a negative height — or a negative width together with a
positive height — makes the Go `make` call panic. -/
theorem newRenderer_pos_spec (w h : Int) (pal : Palette) (hw : 0 < w) (hh : 0 < h) :
    NewRenderer w h pal =
      GoResult.ok { width := w, height := h
                  , buffer := List.replicate h.toNat (List.replicate w.toNat ' ')
                  , colors := List.replicate h.toNat (List.replicate w.toNat ColorBlack)
                  , palette := pal } ∧
    (∀ x y : Int, 0 ≤ x → x < w → 0 ≤ y → y < h →
      bufferAt (runNew w h pal) x y = ' ' ∧
      colorAt (runNew w h pal) x y = ColorBlack) ∧
    (∀ w2 h2 : Int, (h2 < 0 ∨ (w2 < 0 ∧ 0 < h2)) →
      ∃ msg, NewRenderer w2 h2 pal = GoResult.panic msg) := by
  have hok : NewRenderer w h pal =
      GoResult.ok { width := w, height := h
                  , buffer := List.replicate h.toNat (List.replicate w.toNat ' ')
                  , colors := List.replicate h.toNat (List.replicate w.toNat ColorBlack)
                  , palette := pal } := by
    unfold NewRenderer
    rw [if_neg (by omega), if_neg (by omega)]
  refine ⟨hok, ?_, ?_⟩
  · intro x y hx0 hxw hy0 hyh
    have hrun : runNew w h pal =
        { width := w, height := h
        , buffer := List.replicate h.toNat (List.replicate w.toNat ' ')
        , colors := List.replicate h.toNat (List.replicate w.toNat ColorBlack)
        , palette := pal } := by
      unfold runNew
      rw [hok]
    rw [hrun]
    constructor
    · show getD2 (List.replicate h.toNat (List.replicate w.toNat ' ')) y.toNat x.toNat ' ' = ' '
      unfold getD2
      rw [getD_replicate h.toNat y.toNat _ [] (by omega),
        getD_replicate w.toNat x.toNat ' ' ' ' (by omega)]
    · show getD2 (List.replicate h.toNat (List.replicate w.toNat ColorBlack))
        y.toNat x.toNat ColorBlack = ColorBlack
      unfold getD2
      rw [getD_replicate h.toNat y.toNat _ [] (by omega),
        getD_replicate w.toNat x.toNat ColorBlack ColorBlack (by omega)]
  · intro w2 h2 hneg
    unfold NewRenderer
    rcases hneg with hn | ⟨hn1, hn2⟩
    · rw [if_pos hn]
      exact ⟨_, rfl⟩
    · rw [if_neg (by omega), if_pos ⟨hn1, hn2⟩]
      exact ⟨_, rfl⟩

/-- Witness for C8 (amended) at 3×2 with the default palette. -/
theorem newRenderer_pos_spec_witness :
    NewRenderer 3 2 DefaultPalette =
      GoResult.ok { width := 3, height := 2
                  , buffer := List.replicate 2 (List.replicate 3 ' ')
                  , colors := List.replicate 2 (List.replicate 3 ColorBlack)
                  , palette := DefaultPalette } ∧
    colorAt (runNew 3 2 DefaultPalette) 1 1 = ColorBlack := by
  have h := newRenderer_pos_spec 3 2 DefaultPalette (by decide) (by decide)
  exact ⟨h.1, (h.2.1 1 1 (by decide) (by decide) (by decide) (by decide)).2⟩

/-- C10: `DrawRect` with non-positive `width` or `height` executes no
loop iteration: it returns success and the renderer — in particular
every cell of the grid — is unchanged, even when `(x, y)` lies outside
the grid bounds. -/
theorem drawRect_degenerate (r : Renderer) (x y w h : Int) (c : Char) (col : Color)
    (hdeg : w ≤ 0 ∨ h ≤ 0) :
    DrawRect r x y w h c col = (r, none) := by
  rcases hdeg with hw | hh
  · unfold DrawRect
    apply loopE_none
    intro rr dy
    have hz : w.toNat = 0 := by omega
    rw [hz, List.range_zero]
    rfl
  · unfold DrawRect
    have hz : h.toNat = 0 := by omega
    rw [hz, List.range_zero]
    rfl

/-- Witness for C10: a 0-wide rectangle anchored outside a 2×2 grid
succeeds and changes nothing. -/
theorem drawRect_degenerate_witness :
    DrawRect (runNew 2 2 DefaultPalette) 5 5 0 3 'x' 2 =
      (runNew 2 2 DefaultPalette, none) :=
  drawRect_degenerate (runNew 2 2 DefaultPalette) 5 5 0 3 'x' 2 (Or.inl (by decide))

/-- C9 counterexample: the operations never validate their color
argument, so a single `DrawChar` with color `16` against the 16-entry
default palette leaves a cell holding an out-of-range palette index —
the claimed invariant fails for that operation sequence. -/
theorem renderer_palette_invariant_cex :
    ¬ validColors (applyOps (runNew 1 1 DefaultPalette) [Op.drawChar 'a' 0 0 16]) := by
  decide

/-- C9 amended: provided the palette is non-empty (so the default
`ColorBlack` index 0 is valid) and every color passed to the operations
is a valid palette index, then after any sequence of renderer
operations following construction, every cell of the frame buffer
holds a valid index into the renderer's palette. -/
theorem renderer_palette_invariant (w h : Int) (pal : Palette) (r0 : Renderer)
    (ops : List Op) (hnew : NewRenderer w h pal = GoResult.ok r0)
    (hpal : 0 < pal.colors.length)
    (hops : ∀ op ∈ ops, opOK (pal.colors.length : Int) op) :
    validColors (applyOps r0 ops) := by
  have hn : (0 : Int) < (pal.colors.length : Int) := by exact_mod_cast hpal
  have hr0 : r0.palette = pal ∧ colorsOK (pal.colors.length : Int) r0.colors := by
    unfold NewRenderer at hnew
    split at hnew
    · cases hnew
    · split at hnew
      · cases hnew
      · cases hnew
        refine ⟨rfl, ?_⟩
        intro row hrow cc hcc
        have hrow2 := List.eq_of_mem_replicate hrow
        subst hrow2
        have hcc2 := List.eq_of_mem_replicate hcc
        subst hcc2
        exact ⟨le_refl 0, hn⟩
  unfold validColors
  rw [applyOps_palette ops r0, hr0.1]
  exact applyOps_colors hn ops r0 hr0.2 hops

/-- Witness for C9 (amended): a short valid-color program on a 2×2
renderer with the default palette keeps every cell's color a valid
palette index. -/
theorem renderer_palette_invariant_witness :
    validColors (applyOps (runNew 2 2 DefaultPalette)
      [Op.clear, Op.drawChar 'a' 0 0 ColorWhite, Op.drawRect 0 0 2 2 '█' ColorRed]) :=
  renderer_palette_invariant 2 2 DefaultPalette (runNew 2 2 DefaultPalette)
    [Op.clear, Op.drawChar 'a' 0 0 ColorWhite, Op.drawRect 0 0 2 2 '█' ColorRed]
    (by decide) (by decide) (by decide)

/-- C2 counterexample: a 3×2 frame entirely white holds two maximal
same-colored runs counting within each row (`rowRunTotal = 2`), but the
render output contains a single color-set sequence — the tracked color
carries across the row boundary, so the second row's run emits
nothing, contradicting "exactly one color sequence per maximal
within-row run". -/
theorem render_color_coalescing_cex :
    countColorSeq (RenderTokens
      (DrawRect (runNew 3 2 DefaultPalette) 0 0 3 2 '█' ColorWhite).1) = 1 ∧
    rowRunTotal (DrawRect (runNew 3 2 DefaultPalette) 0 0 3 2 '█' ColorWhite).1 = 2 := by
  decide

/-- C2 amended: `Render` emits a color-set sequence exactly at each
cell whose color differs from the previously emitted cell in row-major
order, the color before the first cell being `ColorBlack` (set once per
frame, carried across row boundaries): the number of color-set
sequences equals the number of such transitions — one per maximal
same-colored run of the row-major traversal, except that a leading
`ColorBlack` run emits none and a run continuing the previous row's
color merges with it. -/
theorem render_color_coalescing (r : Renderer) :
    countColorSeq (RenderTokens r) = transitions ColorBlack (rowMajorColors r) := by
  unfold RenderTokens rowMajorColors
  simp only [countColorSeq]
  rw [renderRows_count r.palette (cellRows r) ColorBlack 0]
  omega

end Render

namespace Core

/-- C1 counterexample: a fatal `HandleInput` error makes `Run` return
the error after only the two deferred restores — `Game.Cleanup()` does
not run on this stop path, so the claimed full teardown sequence does
not run (count of `cleanup` is 0, not 1). -/
theorem run_teardown_cex :
    loopGo 1 (1/60)
      [{ rawDelta := 0, sel := SelectEvent.key { rune := 'x' }
       , inputRes := some (GameErr.fatal "boom"), updateRes := none }] true =
      LoopOut.finished [Ev.handleInput { rune := 'x' }, Ev.showCursor, Ev.restoreTerminal]
        (some "boom") ∧
    countEv Ev.cleanup
      [Ev.handleInput { rune := 'x' }, Ev.showCursor, Ev.restoreTerminal] = 0 := by
  decide

/-- C1 amended: whenever `Run`'s loop finishes, the cursor restore and
the terminal-mode restore (the deferred actions) each run exactly once,
as the final two actions of the trace; `Game.Cleanup()` runs exactly
once when `Run` returns nil (quit input, signal, closed input queue, or
normal completion) and — contrary to the claim — does not run at all
when `Run` propagates a fatal error, which is returned after only the
two deferred restores. -/
theorem run_teardown (tt td : ℚ) (s : List Iter) (evs : List Ev) (ret : Option String)
    (h : loopGo tt td s true = LoopOut.finished evs ret) :
    (ret = none →
      countEv Ev.cleanup evs = 1 ∧ countEv Ev.showCursor evs = 1 ∧
      countEv Ev.restoreTerminal evs = 1 ∧
      ∃ pre, evs = pre ++ [Ev.cleanup, Ev.showCursor, Ev.restoreTerminal]) ∧
    (ret ≠ none →
      countEv Ev.cleanup evs = 0 ∧ countEv Ev.showCursor evs = 1 ∧
      countEv Ev.restoreTerminal evs = 1 ∧
      ∃ pre, evs = pre ++ [Ev.showCursor, Ev.restoreTerminal]) := by
  induction s generalizing evs ret with
  | nil =>
    simp only [loopGo] at h
    exact LoopOut.noConfusion h
  | cons it rest ih =>
    rcases hstep : stepIter tt td it with ⟨evs0, r', err⟩
    have hnc : countEv Ev.cleanup evs0 = 0 := by
      have hh := stepIter_no_teardown tt td it Ev.cleanup (Or.inl rfl)
      rw [hstep] at hh
      exact hh
    have hns : countEv Ev.showCursor evs0 = 0 := by
      have hh := stepIter_no_teardown tt td it Ev.showCursor (Or.inr (Or.inl rfl))
      rw [hstep] at hh
      exact hh
    have hnr : countEv Ev.restoreTerminal evs0 = 0 := by
      have hh := stepIter_no_teardown tt td it Ev.restoreTerminal (Or.inr (Or.inr rfl))
      rw [hstep] at hh
      exact hh
    cases err with
    | some m =>
      simp only [loopGo, hstep] at h
      obtain ⟨he, hr⟩ := LoopOut.finished.inj h
      subst he
      subst hr
      constructor
      · intro hret
        cases hret
      · intro _
        refine ⟨?_, ?_, ?_, evs0, rfl⟩
        · rw [countEv_append, hnc]
          rfl
        · rw [countEv_append, hns]
          rfl
        · rw [countEv_append, hnr]
          rfl
    | none =>
      cases r' with
      | false =>
        simp only [loopGo, hstep] at h
        obtain ⟨he, hr⟩ := LoopOut.finished.inj h
        subst he
        subst hr
        constructor
        · intro _
          refine ⟨?_, ?_, ?_, evs0, rfl⟩
          · rw [countEv_append, hnc]
            rfl
          · rw [countEv_append, hns]
            rfl
          · rw [countEv_append, hnr]
            rfl
        · intro hret
          exact absurd rfl hret
      | true =>
        cases hrec : loopGo tt td rest true with
        | finished evs2 ret2 =>
          simp only [loopGo, hstep, hrec] at h
          obtain ⟨he, hr⟩ := LoopOut.finished.inj h
          subst he
          subst hr
          obtain ⟨ihn, ihs⟩ := ih evs2 ret2 hrec
          constructor
          · intro hret
            obtain ⟨c1, c2, c3, pre2, hpre⟩ := ihn hret
            refine ⟨?_, ?_, ?_, evs0 ++ pre2, ?_⟩
            · rw [countEv_append, hnc, c1]
            · rw [countEv_append, hns, c2]
            · rw [countEv_append, hnr, c3]
            · rw [hpre, List.append_assoc]
          · intro hret
            obtain ⟨c1, c2, c3, pre2, hpre⟩ := ihs hret
            refine ⟨?_, ?_, ?_, evs0 ++ pre2, ?_⟩
            · rw [countEv_append, hnc, c1]
            · rw [countEv_append, hns, c2]
            · rw [countEv_append, hnr, c3]
            · rw [hpre, List.append_assoc]
        | outOfFuel evs2 =>
          simp only [loopGo, hstep, hrec] at h
          exact LoopOut.noConfusion h

/-- Witness for C1 (amended): a quit-input run ends with the
`Cleanup`, cursor-restore, terminal-restore events, each once. -/
theorem run_teardown_witness :
    countEv Ev.cleanup
      [Ev.handleInput { rune := 'q' }, Ev.update 0, Ev.draw, Ev.sleep (1/60),
       Ev.cleanup, Ev.showCursor, Ev.restoreTerminal] = 1 ∧
    countEv Ev.showCursor
      [Ev.handleInput { rune := 'q' }, Ev.update 0, Ev.draw, Ev.sleep (1/60),
       Ev.cleanup, Ev.showCursor, Ev.restoreTerminal] = 1 ∧
    countEv Ev.restoreTerminal
      [Ev.handleInput { rune := 'q' }, Ev.update 0, Ev.draw, Ev.sleep (1/60),
       Ev.cleanup, Ev.showCursor, Ev.restoreTerminal] = 1 := by
  have h := run_teardown 1 (1/60)
    [{ rawDelta := 0, sel := SelectEvent.key { rune := 'q' }
     , inputRes := some GameErr.quit, updateRes := none }]
    [Ev.handleInput { rune := 'q' }, Ev.update 0, Ev.draw, Ev.sleep (1/60),
     Ev.cleanup, Ev.showCursor, Ev.restoreTerminal] none
    (by norm_num [loopGo, stepIter, tailPhase])
  obtain ⟨c1, c2, c3, _⟩ := h.1 rfl
  exact ⟨c1, c2, c3⟩

/-- C3 counterexample: when the input queue is observed closed, the
loop stops and teardown runs, but `Run` returns nil — a success, not
the error the claim requires. -/
theorem queue_closed_cex :
    loopGo 1 (1/60)
      [{ rawDelta := 0, sel := SelectEvent.keyClosed
       , inputRes := none, updateRes := none }] true =
      LoopOut.finished [Ev.cleanup, Ev.showCursor, Ev.restoreTerminal] none := by
  decide

/-- C3 amended: observing the input queue closed makes the loop stop
(`gl.Stop()` then `continue`, skipping the rest of the iteration); the
normal teardown (`Cleanup`, cursor restore, terminal-mode restore) runs
and `Run` returns nil — the condition is logged but no error is
propagated to the caller, whatever the rest of the script holds. -/
theorem queue_closed_returns_nil (tt td d : ℚ) (ir ur : Option GameErr)
    (rest : List Iter) :
    loopGo tt td
      ({ rawDelta := d, sel := SelectEvent.keyClosed
       , inputRes := ir, updateRes := ur } :: rest) true =
      LoopOut.finished [Ev.cleanup, Ev.showCursor, Ev.restoreTerminal] none := by
  simp [loopGo, stepIter]

/-- C4: the frame-rate cap.  Any sleep performed by an iteration
sleeps exactly `targetDeltaTime - deltaTime` (where `deltaTime` is the
iteration's measured wall-clock delta scaled by the time-scale factor,
the loop's elapsed-time measure for the iteration) and only when that
difference is positive; conversely, an iteration that reaches the end
of its body sleeps that amount when it is positive and does not sleep
otherwise. -/
theorem frame_cap (tt td : ℚ) :
    (∀ (it : Iter) (d : ℚ), Ev.sleep d ∈ (stepIter tt td it).1 →
      d = td - it.rawDelta * tt ∧ 0 < d) ∧
    (∀ it : Iter, it.sel = SelectEvent.idle → it.updateRes = none →
      0 < td - it.rawDelta * tt →
      (stepIter tt td it).1 =
        [Ev.update (it.rawDelta * tt), Ev.draw, Ev.sleep (td - it.rawDelta * tt)]) ∧
    (∀ it : Iter, it.sel = SelectEvent.idle → it.updateRes = none →
      ¬ 0 < td - it.rawDelta * tt →
      (stepIter tt td it).1 = [Ev.update (it.rawDelta * tt), Ev.draw]) := by
  refine ⟨fun it d h => stepIter_sleep tt td it d h, ?_, ?_⟩
  · intro it h1 h2 h3
    rcases it with ⟨rd, sel, ir, ur⟩
    simp only at h1 h2
    subst h1
    subst h2
    simp only [stepIter, tailPhase]
    rw [if_pos h3]
    rfl
  · intro it h1 h2 h3
    rcases it with ⟨rd, sel, ir, ur⟩
    simp only at h1 h2
    subst h1
    subst h2
    simp only [stepIter, tailPhase]
    rw [if_neg h3]
    rfl

/-- Witness for C4: with time-scale 1, target 60 fps and a measured
delta of `1/120` s, the idle iteration sleeps exactly `1/120 = 1/60 - 1/120`
seconds; and the sleep in that trace satisfies the cap equation. -/
theorem frame_cap_witness :
    (stepIter 1 (1/60)
      { rawDelta := 1/120, sel := SelectEvent.idle
      , inputRes := none, updateRes := none }).1 =
      [Ev.update (1/120 * 1), Ev.draw, Ev.sleep (1/60 - 1/120 * 1)] :=
  (frame_cap 1 (1/60)).2.1
    { rawDelta := 1/120, sel := SelectEvent.idle, inputRes := none, updateRes := none }
    rfl rfl (by norm_num)

end Core

namespace Scenes

/-- C5: `ChangeScene` on a manager with an active scene and a
registered target id calls `Exit` of the outgoing scene strictly before
`Enter` of the incoming one — the lifecycle trace is exactly
`[exit old, enter incoming]` — with no special case when the target id
resolves to the currently-active scene itself (take `nxt = old`). -/
theorem changeScene_exit_before_enter {S : Type} (m : Manager S) (id : SceneID)
    (old nxt : S) (hcur : m.currentScene = some old) (hreg : m.scenes id = some nxt) :
    ChangeScene m id =
      GoResult.ok ({ m with currentScene := some nxt },
        [LifecycleEv.exit old, LifecycleEv.enter nxt]) := by
  unfold ChangeScene
  rw [hcur, hreg]
  rfl

/-- Witness for C5: changing to the already-active scene (id 0, scene
value 7) still performs the full `Exit`-then-`Enter` cycle. -/
theorem changeScene_exit_before_enter_witness :
    ChangeScene
      { scenes := fun i => if i = 0 then some (7 : Nat) else none
      , currentScene := some 7 } 0 =
      GoResult.ok
        ({ scenes := fun i => if i = 0 then some (7 : Nat) else none
         , currentScene := some 7 },
         [LifecycleEv.exit 7, LifecycleEv.enter 7]) :=
  changeScene_exit_before_enter
    { scenes := fun i => if i = 0 then some (7 : Nat) else none, currentScene := some 7 }
    0 7 7 rfl (by simp)

end Scenes

end GG
